import Mathlib

/-!
Verification of the BitChess core rules engine: a shallow embedding of the
bitboard primitives (src/bitboard.h, src/bitboard.cpp), the position and
move-application state machine (src/board.h, src/board.cpp) and the move
generator (src/movegen.cpp), together with theorems settling the claims of
the specification against this embedding.

Bitboards are 64-bit unsigned integers; they are modelled as `Nat` values
kept below `2 ^ 64`, with left shifts masked to 64 bits exactly where the
C++ wraps.  Squares, colors and piece types are the small integers of the
C++ enums (`NO_SQUARE = 64`, `WHITE = 0`, `BLACK = 1`, `NO_COLOR = 2`,
`PAWN = 0`, ..., `KING = 5`, `NO_PIECE_TYPE = 6`).
-/

namespace BitChess

/-- All 64 bits set: the mask of a 64-bit word. -/
def M64 : Nat := 2 ^ 64 - 1

/-- 64-bit left shift with wraparound, as on `uint64_t`. -/
def shl64 (x n : Nat) : Nat := (x <<< n) &&& M64

/-- Bitwise complement on 64-bit words. -/
def bnot (x : Nat) : Nat := x ^^^ M64

/-- The bitboard with exactly bit `sq` set (`1ULL << sq`). -/
def bit (sq : Nat) : Nat := 1 <<< sq

/-- `BitboardUtils::squareRank`. -/
def squareRank (sq : Nat) : Nat := sq / 8

/-- `BitboardUtils::squareFile`. -/
def squareFile (sq : Nat) : Nat := sq % 8

/-- `BitboardUtils::squareFromRankFile`. -/
def squareFromRankFile (r f : Nat) : Nat := r * 8 + f

/-- Fuel-bounded count of trailing zeros (the loop of `__builtin_ctzll`). -/
def ctzAux : Nat → Nat → Nat
  | 0, _ => 0
  | fuel + 1, n => if n % 2 = 1 then 0 else ctzAux fuel (n / 2) + 1

/-- `BitboardUtils::lsb`: index of the least significant set bit, `NO_SQUARE`
(64) for the empty bitboard. -/
def lsb (bb : Nat) : Nat := if bb = 0 then 64 else ctzAux 64 bb

/-- One step of the population-count loop; the fuel bounds the number of set
bits, which is at most 64 for a 64-bit word. -/
def popCountAux : Nat → Nat → Nat
  | 0, _ => 0
  | fuel + 1, bb => if bb = 0 then 0 else popCountAux fuel (bb &&& (bb - 1)) + 1

/-- `BitboardUtils::popCount`: clears the least significant bit until the
word is empty, counting iterations. -/
def popCount (bb : Nat) : Nat := popCountAux 64 bb

/-- `BitboardUtils::popLsb`: returns the value of its argument before the
update and replaces the argument by `bb & (bb - 1)`.  The pair is
(returned value, new value of the argument). -/
def popLsb (bb : Nat) : Nat × Nat := (bb, bb &&& (bb - 1))

/-- `BitboardConstants::FILE_MASKS`. -/
def FILE_MASKS : List Nat :=
  [0x0101010101010101, 0x0202020202020202, 0x0404040404040404, 0x0808080808080808,
   0x1010101010101010, 0x2020202020202020, 0x4040404040404040, 0x8080808080808080]

/-- `BitboardConstants::RANK_MASKS`. -/
def RANK_MASKS : List Nat :=
  [0x00000000000000FF, 0x000000000000FF00, 0x0000000000FF0000, 0x00000000FF000000,
   0x000000FF00000000, 0x0000FF0000000000, 0x00FF000000000000, 0xFF00000000000000]

/-- Mask of file `f` (out-of-range indices give 0, as a guarded lookup). -/
def fmask (f : Nat) : Nat := FILE_MASKS.getD f 0

/-- `BitboardUtils::generateKnightAttacks`. -/
def knightAttacks (sq : Nat) : Nat :=
  let bb := bit sq
  (shl64 bb 17 &&& bnot (fmask 0)) |||
  (shl64 bb 10 &&& bnot (fmask 0 ||| fmask 1)) |||
  ((bb >>> 6) &&& bnot (fmask 0 ||| fmask 1)) |||
  ((bb >>> 15) &&& bnot (fmask 0)) |||
  ((bb >>> 17) &&& bnot (fmask 7)) |||
  ((bb >>> 10) &&& bnot (fmask 6 ||| fmask 7)) |||
  (shl64 bb 6 &&& bnot (fmask 6 ||| fmask 7)) |||
  (shl64 bb 15 &&& bnot (fmask 7))

/-- `BitboardUtils::generateKingAttacks`. -/
def kingAttacks (sq : Nat) : Nat :=
  let bb := bit sq
  shl64 bb 8 |||
  (shl64 bb 9 &&& bnot (fmask 0)) |||
  (shl64 bb 1 &&& bnot (fmask 0)) |||
  ((bb >>> 7) &&& bnot (fmask 0)) |||
  (bb >>> 8) |||
  ((bb >>> 9) &&& bnot (fmask 7)) |||
  ((bb >>> 1) &&& bnot (fmask 7)) |||
  (shl64 bb 7 &&& bnot (fmask 7))

/-- `BitboardUtils::generatePawnAttacks`, also the entries of the
`PAWN_ATTACKS[color][square]` table. -/
def pawnAttacks (color sq : Nat) : Nat :=
  let bb := bit sq
  if color = 0 then
    (shl64 bb 9 &&& bnot (fmask 0)) ||| (shl64 bb 7 &&& bnot (fmask 7))
  else
    ((bb >>> 7) &&& bnot (fmask 0)) ||| ((bb >>> 9) &&& bnot (fmask 7))

/-- One ray of a sliding attack: add each square in order, stopping after
the first occupied square (the blocker is included). -/
def ray (occupied : Nat) : List Nat → Nat
  | [] => 0
  | s :: rest =>
    bit s ||| (if occupied &&& bit s ≠ 0 then 0 else ray occupied rest)

/-- `generateRookAttacks` (src/movegen.cpp): rays north, south, east, west. -/
def generateRookAttacks (sq occupied : Nat) : Nat :=
  let r := squareRank sq
  let f := squareFile sq
  ray occupied ((List.range' (r + 1) (7 - r)).map (fun i => i * 8 + f)) |||
  ray occupied ((List.range r).reverse.map (fun i => i * 8 + f)) |||
  ray occupied ((List.range' (f + 1) (7 - f)).map (fun i => r * 8 + i)) |||
  ray occupied ((List.range f).reverse.map (fun i => r * 8 + i))

/-- `generateBishopAttacks` (src/movegen.cpp): rays NE, SE, SW, NW. -/
def generateBishopAttacks (sq occupied : Nat) : Nat :=
  let r := squareRank sq
  let f := squareFile sq
  ray occupied ((List.range (min (7 - r) (7 - f))).map
    (fun i => (r + 1 + i) * 8 + (f + 1 + i))) |||
  ray occupied ((List.range (min r (7 - f))).map
    (fun i => (r - 1 - i) * 8 + (f + 1 + i))) |||
  ray occupied ((List.range (min r f)).map
    (fun i => (r - 1 - i) * 8 + (f - 1 - i))) |||
  ray occupied ((List.range (min (7 - r) f)).map
    (fun i => (r + 1 + i) * 8 + (f - 1 - i)))

/-- `MoveGenerator::getPieceAttacks`: dispatch on the piece type; the color
argument matters only for pawns. -/
def getPieceAttacks (pieceType sq color occupied : Nat) : Nat :=
  if pieceType = 0 then pawnAttacks color sq
  else if pieceType = 1 then knightAttacks sq
  else if pieceType = 2 then generateBishopAttacks sq occupied
  else if pieceType = 3 then generateRookAttacks sq occupied
  else if pieceType = 4 then generateBishopAttacks sq occupied ||| generateRookAttacks sq occupied
  else if pieceType = 5 then kingAttacks sq
  else 0

/-- A chess move as in `struct Move`: source square, destination square and
promotion piece type (6 = `NO_PIECE_TYPE` when not a promotion). -/
structure Move where
  fromSq : Nat
  toSq : Nat
  promotion : Nat
deriving DecidableEq, Repr

/-- `Move::isValid`: both squares differ from `NO_SQUARE`. -/
def Move.isValid (m : Move) : Bool :=
  m.fromSq != 64 && m.toSq != 64

/-- The full chess state of `class Board`.  `pieces` holds the 12 piece
bitboards indexed `[color][pieceType]`; `allPieces` and `occupied` are the
derived bitboards. -/
structure Board where
  pieces : List (List Nat)
  allPieces : List Nat
  occupied : Nat
  sideToMove : Nat
  castlingRights : Nat
  enPassantSquare : Nat
  halfmoveClock : Int
  fullmoveNumber : Int
  chess960 : Bool
deriving DecidableEq, Repr

/-- Bitboard of the pieces of color `c` with type `pt` (`_pieces[c][pt]`). -/
def Board.piece (b : Board) (c pt : Nat) : Nat := (b.pieces.getD c []).getD pt 0

/-- `_allPieces[c]`. -/
def Board.allOf (b : Board) (c : Nat) : Nat := b.allPieces.getD c 0

/-- Replace the bitboard `_pieces[c][pt]` by `v`. -/
def Board.setPiece (b : Board) (c pt v : Nat) : Board :=
  { b with pieces := b.pieces.set c ((b.pieces.getD c []).set pt v) }

/-- `Board::updateCombinedBitboards`: recompute `_allPieces` and
`_occupiedSquares` from the 12 piece bitboards. -/
def Board.updateCombined (b : Board) : Board :=
  let aw := (List.range 6).foldl (fun acc p => acc ||| b.piece 0 p) 0
  let ab := (List.range 6).foldl (fun acc p => acc ||| b.piece 1 p) 0
  { b with allPieces := [aw, ab], occupied := aw ||| ab }

/-- The scan of one color's six piece bitboards inside `Board::pieceAt`. -/
def Board.scanPiece (b : Board) (c bb : Nat) : Option Nat :=
  (List.range 6).find? (fun p => decide (b.piece c p &&& bb ≠ 0))

/-- `Board::pieceAt`: the (piece type, color) at a square, `(6, 2)` (that
is, `NO_PIECE_TYPE`, `NO_COLOR`) for an empty square. -/
def Board.pieceAt (b : Board) (sq : Nat) : Nat × Nat :=
  let bb := bit sq
  if b.allOf 0 &&& bb ≠ 0 then
    match b.scanPiece 0 bb with
    | some p => (p, 0)
    | none => (6, 2)
  else if b.allOf 1 &&& bb ≠ 0 then
    match b.scanPiece 1 bb with
    | some p => (p, 1)
    | none => (6, 2)
  else (6, 2)

/-- `Board::isSquareAttacked`: is `sq` attacked by a piece of
`attackingColor`?  The pawn clause passes `1 - attackingColor` to the
pawn-attack lookup; the other piece types pass `NO_COLOR` (2). -/
def Board.isSquareAttacked (b : Board) (sq attackingColor : Nat) : Bool :=
  decide (getPieceAttacks 0 sq (1 - attackingColor) b.occupied &&& b.piece attackingColor 0 ≠ 0) ||
  decide (getPieceAttacks 1 sq 2 b.occupied &&& b.piece attackingColor 1 ≠ 0) ||
  decide (getPieceAttacks 2 sq 2 b.occupied &&& b.piece attackingColor 2 ≠ 0) ||
  decide (getPieceAttacks 3 sq 2 b.occupied &&& b.piece attackingColor 3 ≠ 0) ||
  decide (getPieceAttacks 4 sq 2 b.occupied &&& b.piece attackingColor 4 ≠ 0) ||
  decide (getPieceAttacks 5 sq 2 b.occupied &&& b.piece attackingColor 5 ≠ 0)

/-- `Board::findKing`: lsb of the king bitboard of `color`. -/
def Board.findKing (b : Board) (color : Nat) : Nat := lsb (b.piece color 5)

/-- `Board::isInCheck`. -/
def Board.isInCheck (b : Board) (color : Nat) : Bool :=
  b.findKing color != 64 && b.isSquareAttacked (b.findKing color) (1 - color)

/-- `Board::reset`: the standard starting position. -/
def resetBoard : Board :=
  (Board.updateCombined
    { pieces :=
        [[0x000000000000FF00, 0x0000000000000042, 0x0000000000000024,
          0x0000000000000081, 0x0000000000000008, 0x0000000000000010],
         [0x00FF000000000000, 0x4200000000000000, 0x2400000000000000,
          0x8100000000000000, 0x0800000000000000, 0x1000000000000000]],
      allPieces := [0, 0],
      occupied := 0,
      sideToMove := 0,
      castlingRights := 15,
      enPassantSquare := 64,
      halfmoveClock := 0,
      fullmoveNumber := 1,
      chess960 := false })

/-- Clear bit `sq` of `_pieces[c][pt]` (`&= ~(1ULL << sq)`). -/
def Board.clearPieceBit (b : Board) (c pt sq : Nat) : Board :=
  b.setPiece c pt (b.piece c pt &&& bnot (bit sq))

/-- Set bit `sq` of `_pieces[c][pt]` (`|= (1ULL << sq)`). -/
def Board.addPieceBit (b : Board) (c pt sq : Nat) : Board :=
  b.setPiece c pt (b.piece c pt ||| bit sq)

/-- The five-way dispatch in the middle of `Board::makeMove`: it mutates the
piece bitboards, castling rights and en passant square, or yields `none`
when a castling precondition fails.  `movingPiece`, `movingColor`,
`capturedPiece`, `capturedColor` and `isCapture` are the values computed
before the dispatch. -/
def Board.makeMoveDispatch (b : Board) (m : Move)
    (movingPiece movingColor capturedPiece capturedColor : Nat)
    (isCapture : Bool) : Option Board :=
  if movingPiece = 5 then
    -- White kingside castling
    if m.fromSq = 4 ∧ m.toSq = 6 ∧ b.sideToMove = 0 then
      if b.castlingRights &&& 1 = 0 ∨ b.occupied &&& (bit 5 ||| bit 6) ≠ 0 ∨
          b.isInCheck 0 = true ∨ b.isSquareAttacked 5 1 = true then none
      else some ({ ((((b.clearPieceBit 0 5 4).addPieceBit 0 5 6).clearPieceBit 0 3 7).addPieceBit 0 3 5)
                   with castlingRights := b.castlingRights &&& bnot 3 &&& 15 })
    -- White queenside castling
    else if m.fromSq = 4 ∧ m.toSq = 2 ∧ b.sideToMove = 0 then
      if b.castlingRights &&& 2 = 0 ∨ b.occupied &&& (bit 1 ||| bit 2 ||| bit 3) ≠ 0 ∨
          b.isInCheck 0 = true ∨ b.isSquareAttacked 3 1 = true then none
      else some ({ ((((b.clearPieceBit 0 5 4).addPieceBit 0 5 2).clearPieceBit 0 3 0).addPieceBit 0 3 3)
                   with castlingRights := b.castlingRights &&& bnot 3 &&& 15 })
    -- Black kingside castling
    else if m.fromSq = 60 ∧ m.toSq = 62 ∧ b.sideToMove = 1 then
      if b.castlingRights &&& 4 = 0 ∨ b.occupied &&& (bit 61 ||| bit 62) ≠ 0 ∨
          b.isInCheck 1 = true ∨ b.isSquareAttacked 61 0 = true then none
      else some ({ ((((b.clearPieceBit 1 5 60).addPieceBit 1 5 62).clearPieceBit 1 3 63).addPieceBit 1 3 61)
                   with castlingRights := b.castlingRights &&& bnot 12 &&& 15 })
    -- Black queenside castling
    else if m.fromSq = 60 ∧ m.toSq = 58 ∧ b.sideToMove = 1 then
      if b.castlingRights &&& 8 = 0 ∨ b.occupied &&& (bit 57 ||| bit 58 ||| bit 59) ≠ 0 ∨
          b.isInCheck 1 = true ∨ b.isSquareAttacked 59 0 = true then none
      else some ({ ((((b.clearPieceBit 1 5 60).addPieceBit 1 5 58).clearPieceBit 1 3 56).addPieceBit 1 3 59)
                   with castlingRights := b.castlingRights &&& bnot 12 &&& 15 })
    -- Regular king move: clear the mover's castling rights; note the en
    -- passant square is not touched here.
    else
      let b1 := { b with castlingRights :=
        if b.sideToMove = 0 then b.castlingRights &&& bnot 3 &&& 15
        else b.castlingRights &&& bnot 12 &&& 15 }
      let b2 := b1.clearPieceBit movingColor movingPiece m.fromSq
      let b3 := if isCapture then b2.clearPieceBit capturedColor capturedPiece m.toSq else b2
      some (b3.addPieceBit movingColor movingPiece m.toSq)
  -- En passant capture: note the destination square's occupant (if any) is
  -- not removed; only the pawn behind the en passant square is.
  else if movingPiece = 0 ∧ m.toSq = b.enPassantSquare then
    let capturedPawnSquare :=
      if b.sideToMove = 0 then b.enPassantSquare - 8 else b.enPassantSquare + 8
    let b1 := b.clearPieceBit (1 - b.sideToMove) 0 capturedPawnSquare
    let b2 := (b1.clearPieceBit movingColor movingPiece m.fromSq).addPieceBit movingColor movingPiece m.toSq
    some { b2 with enPassantSquare := 64 }
  -- Pawn promotion: note no castling-right update for a captured rook, and
  -- the en passant square is not touched.
  else if movingPiece = 0 ∧ m.promotion ≠ 6 then
    let b1 := b.clearPieceBit movingColor 0 m.fromSq
    let b2 := if isCapture then b1.clearPieceBit capturedColor capturedPiece m.toSq else b1
    some (b2.addPieceBit movingColor m.promotion m.toSq)
  -- Pawn double push: set the en passant square.
  else if movingPiece = 0 ∧
      ((squareRank m.toSq : Int) - (squareRank m.fromSq : Int)).natAbs = 2 then
    let b1 := (b.clearPieceBit movingColor movingPiece m.fromSq).addPieceBit movingColor movingPiece m.toSq
    some { b1 with enPassantSquare :=
      if b.sideToMove = 0 then m.fromSq + 8 else m.fromSq - 8 }
  -- Regular piece move.
  else
    let b1 :=
      if movingPiece = 3 then
        if b.sideToMove = 0 then
          let r1 := if m.fromSq = 0 then b.castlingRights &&& bnot 2 &&& 15 else b.castlingRights
          { b with castlingRights := if m.fromSq = 7 then r1 &&& bnot 1 &&& 15 else r1 }
        else
          let r1 := if m.fromSq = 56 then b.castlingRights &&& bnot 8 &&& 15 else b.castlingRights
          { b with castlingRights := if m.fromSq = 63 then r1 &&& bnot 4 &&& 15 else r1 }
      else b
    let b2 :=
      if isCapture = true ∧ capturedPiece = 3 then
        if capturedColor = 0 then
          let r1 := if m.toSq = 0 then b1.castlingRights &&& bnot 2 &&& 15 else b1.castlingRights
          { b1 with castlingRights := if m.toSq = 7 then r1 &&& bnot 1 &&& 15 else r1 }
        else
          let r1 := if m.toSq = 56 then b1.castlingRights &&& bnot 8 &&& 15 else b1.castlingRights
          { b1 with castlingRights := if m.toSq = 63 then r1 &&& bnot 4 &&& 15 else r1 }
      else b1
    let b3 := b2.clearPieceBit movingColor movingPiece m.fromSq
    let b4 := if isCapture then b3.clearPieceBit capturedColor capturedPiece m.toSq else b3
    let b5 := b4.addPieceBit movingColor movingPiece m.toSq
    some { b5 with enPassantSquare := 64 }

/-- `Board::makeMove`.  Returns the success flag together with the board
after the call: on success the fully updated position, on failure the
board as the C++ leaves it (possibly mutated when the self-check test
fails after the bitboards were already updated). -/
def Board.makeMove (b : Board) (m : Move) : Bool × Board :=
  if m.isValid = false then (false, b)
  else
    let mc := b.pieceAt m.fromSq
    let movingPiece := mc.1
    let movingColor := mc.2
    if movingColor ≠ b.sideToMove then (false, b)
    else
      let cc := b.pieceAt m.toSq
      let capturedPiece := cc.1
      let capturedColor := cc.2
      let isCapture := capturedColor != 2
      match b.makeMoveDispatch m movingPiece movingColor capturedPiece capturedColor isCapture with
      | none => (false, b)
      | some b1 =>
        let b2 := b1.updateCombined
        if b2.isInCheck b2.sideToMove then (false, b2)
        else
          let b3 := { b2 with sideToMove := if b2.sideToMove = 0 then 1 else 0 }
          let b4 := { b3 with halfmoveClock :=
            if movingPiece = 0 ∨ isCapture = true then 0 else b3.halfmoveClock + 1 }
          let b5 := { b4 with fullmoveNumber :=
            if b4.sideToMove = 0 then b4.fullmoveNumber + 1 else b4.fullmoveNumber }
          (true, b5)

/-- Apply a list of moves in order with `Board::makeMove`, failing if any
move is rejected. -/
def applyMoves (b : Board) : List Move → Option Board
  | [] => some b
  | m :: rest =>
    let r := b.makeMove m
    if r.1 then applyMoves r.2 rest else none

/-- The set-bit indices of a bitboard in increasing order: the squares
visited by a `while (bb) { sq = lsb(bb); ...; bb &= bb - 1; }` loop. -/
def bitSquares : Nat → Nat → List Nat
  | 0, _ => []
  | fuel + 1, bb => if bb = 0 then [] else lsb bb :: bitSquares fuel (bb &&& (bb - 1))

/-- The pseudo-legal moves of one pawn in `generatePseudoLegalMoves`:
single push (with the four promotions on the last rank), double push,
captures (with promotions), en passant. -/
def pawnMovesFrom (b : Board) (us : Nat) (f : Nat) : List Move :=
  let pushDir : Int := if us = 0 then 8 else -8
  let to1 : Nat := ((f : Int) + pushDir).toNat
  let pushes :=
    if b.occupied &&& bit to1 = 0 then
      (if (us = 0 ∧ squareRank f = 6) ∨ (us = 1 ∧ squareRank f = 1) then
        [Move.mk f to1 4, Move.mk f to1 3, Move.mk f to1 2, Move.mk f to1 1]
      else [Move.mk f to1 6]) ++
      (if (us = 0 ∧ squareRank f = 1) ∨ (us = 1 ∧ squareRank f = 6) then
        let to2 : Nat := ((to1 : Int) + pushDir).toNat
        if b.occupied &&& bit to2 = 0 then [Move.mk f to2 6] else []
      else [])
    else []
  let captures :=
    (bitSquares 64 (pawnAttacks us f &&& b.allOf (1 - us))).flatMap (fun t =>
      if (us = 0 ∧ squareRank t = 7) ∨ (us = 1 ∧ squareRank t = 0) then
        [Move.mk f t 4, Move.mk f t 3, Move.mk f t 2, Move.mk f t 1]
      else [Move.mk f t 6])
  let ep :=
    if b.enPassantSquare ≠ 64 then
      if pawnAttacks us f &&& shl64 1 b.enPassantSquare ≠ 0 then
        [Move.mk f b.enPassantSquare 6]
      else []
    else []
  pushes ++ captures ++ ep

/-- `MoveGenerator::generatePseudoLegalMoves`. -/
def generatePseudoLegalMoves (b : Board) : List Move :=
  let us := b.sideToMove
  let ourPieces := b.allOf us
  let occupied := b.occupied
  let pawnMoves := (bitSquares 64 (b.piece us 0)).flatMap (pawnMovesFrom b us)
  let knightMoves := (bitSquares 64 (b.piece us 1)).flatMap (fun f =>
    (bitSquares 64 (knightAttacks f &&& bnot ourPieces)).map (fun t => Move.mk f t 6))
  let bishopMoves := (bitSquares 64 (b.piece us 2)).flatMap (fun f =>
    (bitSquares 64 (generateBishopAttacks f occupied &&& bnot ourPieces)).map
      (fun t => Move.mk f t 6))
  let rookMoves := (bitSquares 64 (b.piece us 3)).flatMap (fun f =>
    (bitSquares 64 (generateRookAttacks f occupied &&& bnot ourPieces)).map
      (fun t => Move.mk f t 6))
  let queenMoves := (bitSquares 64 (b.piece us 4)).flatMap (fun f =>
    (bitSquares 64 ((generateBishopAttacks f occupied ||| generateRookAttacks f occupied) &&&
      bnot ourPieces)).map (fun t => Move.mk f t 6))
  let kingMoves :=
    if b.piece us 5 ≠ 0 then
      let f := lsb (b.piece us 5)
      (bitSquares 64 (kingAttacks f &&& bnot ourPieces)).map (fun t => Move.mk f t 6) ++
      (if us = 0 then
        (if b.castlingRights &&& 1 ≠ 0 ∧ occupied &&& (bit 5 ||| bit 6) = 0 ∧
            b.isSquareAttacked 4 1 = false ∧ b.isSquareAttacked 5 1 = false then
          [Move.mk 4 6 6] else []) ++
        (if b.castlingRights &&& 2 ≠ 0 ∧ occupied &&& (bit 1 ||| bit 2 ||| bit 3) = 0 ∧
            b.isSquareAttacked 4 1 = false ∧ b.isSquareAttacked 3 1 = false then
          [Move.mk 4 2 6] else [])
      else
        (if b.castlingRights &&& 4 ≠ 0 ∧ occupied &&& (bit 61 ||| bit 62) = 0 ∧
            b.isSquareAttacked 60 0 = false ∧ b.isSquareAttacked 61 0 = false then
          [Move.mk 60 62 6] else []) ++
        (if b.castlingRights &&& 8 ≠ 0 ∧ occupied &&& (bit 57 ||| bit 58 ||| bit 59) = 0 ∧
            b.isSquareAttacked 60 0 = false ∧ b.isSquareAttacked 59 0 = false then
          [Move.mk 60 58 6] else []))
    else []
  pawnMoves ++ knightMoves ++ bishopMoves ++ rookMoves ++ queenMoves ++ kingMoves

/-- `MoveGenerator::filterLegalMoves`: keep the moves that `makeMove`
accepts on a copy of the position. -/
def filterLegalMoves (b : Board) (moves : List Move) : List Move :=
  moves.filter (fun m => (b.makeMove m).1)

/-- `MoveGenerator::generateLegalMoves`. -/
def generateLegalMoves (b : Board) : List Move :=
  filterLegalMoves b (generatePseudoLegalMoves b)

/-- `Board::isInsufficientMaterial`. -/
def Board.isInsufficientMaterial (b : Board) : Bool :=
  if popCount b.occupied = 2 then true
  else if popCount b.occupied = 3 ∧
      (popCount (b.allOf 0) = 1 ∨ popCount (b.allOf 1) = 1) then
    decide (popCount (b.piece 0 1 ||| b.piece 0 2 ||| b.piece 1 1 ||| b.piece 1 2) = 1)
  else if popCount b.occupied = 4 ∧ popCount (b.piece 0 2) = 1 ∧
      popCount (b.piece 1 2) = 1 ∧ popCount (b.allOf 0) = 2 ∧
      popCount (b.allOf 1) = 2 then
    let wsq := lsb (b.piece 0 2)
    let bsq := lsb (b.piece 1 2)
    decide ((squareRank wsq + squareFile wsq) % 2 = 0) ==
      decide ((squareRank bsq + squareFile bsq) % 2 = 0)
  else false

/-- `Move::toUci`: four coordinate characters plus an optional promotion
letter; the invalid move prints as "0000".  A promotion value outside
{queen, rook, bishop, knight} falls into the switch's default case and
appends nothing. -/
def Move.toUci (m : Move) : String :=
  if m.isValid = false then "0000"
  else
    let s := String.mk
      [Char.ofNat (97 + squareFile m.fromSq), Char.ofNat (49 + squareRank m.fromSq),
       Char.ofNat (97 + squareFile m.toSq), Char.ofNat (49 + squareRank m.toSq)]
    if m.promotion ≠ 6 then
      s ++ (if m.promotion = 4 then "q" else if m.promotion = 3 then "r"
            else if m.promotion = 2 then "b" else if m.promotion = 1 then "n" else "")
    else s

/-- `Move::fromUci`: length and coordinate range checks, then the optional
promotion letter; any failure yields the invalid move (64, 64, 6). -/
def Move.fromUci (uci : String) : Move :=
  let cs := uci.toList
  if cs.length < 4 ∨ 5 < cs.length then Move.mk 64 64 6
  else
    let fromFile : Int := (cs.getD 0 ' ').toNat - 97
    let fromRank : Int := (cs.getD 1 ' ').toNat - 49
    let toFile : Int := (cs.getD 2 ' ').toNat - 97
    let toRank : Int := (cs.getD 3 ' ').toNat - 49
    if fromFile < 0 ∨ 7 < fromFile ∨ fromRank < 0 ∨ 7 < fromRank ∨
        toFile < 0 ∨ 7 < toFile ∨ toRank < 0 ∨ 7 < toRank then Move.mk 64 64 6
    else
      let fromSq := (fromRank * 8 + fromFile).toNat
      let toSq := (toRank * 8 + toFile).toNat
      if cs.length = 5 then
        let c := cs.getD 4 ' '
        if c = 'q' then Move.mk fromSq toSq 4
        else if c = 'r' then Move.mk fromSq toSq 3
        else if c = 'b' then Move.mk fromSq toSq 2
        else if c = 'n' then Move.mk fromSq toSq 1
        else Move.mk 64 64 6
      else Move.mk fromSq toSq 6

/-- The FEN letter of a piece type, lowercase (the emitter's switch). -/
def pieceChar (pt : Nat) : Char :=
  if pt = 0 then 'p' else if pt = 1 then 'n' else if pt = 2 then 'b'
  else if pt = 3 then 'r' else if pt = 4 then 'q' else if pt = 5 then 'k' else '?'

/-- Uppercase a lowercase letter (the emitter's `toupper`). -/
def upChar (c : Char) : Char :=
  if 97 ≤ c.toNat ∧ c.toNat ≤ 122 then Char.ofNat (c.toNat - 32) else c

/-- Decimal digits of a natural number (fuel-bounded). -/
def natDecimalAux : Nat → Nat → List Char
  | 0, _ => []
  | fuel + 1, n =>
    if n < 10 then [Char.ofNat (48 + n)]
    else natDecimalAux fuel (n / 10) ++ [Char.ofNat (48 + n % 10)]

/-- Decimal rendering of an `int` as `operator<<` prints it. -/
def intDecimal (i : Int) : String :=
  if i < 0 then String.mk ('-' :: natDecimalAux 32 i.natAbs)
  else String.mk (natDecimalAux 32 i.toNat)

/-- One rank of the FEN board field: scan files a through h, run-length
encoding empty squares. -/
def fenRank (b : Board) (r : Nat) : String :=
  let step := fun (acc : Nat × String) (f : Nat) =>
    let pc := b.pieceAt (squareFromRankFile r f)
    if pc.1 = 6 then (acc.1 + 1, acc.2)
    else
      let s1 := if acc.1 > 0 then acc.2.push (Char.ofNat (48 + acc.1)) else acc.2
      let c := pieceChar pc.1
      (0, s1.push (if pc.2 = 0 then upChar c else c))
  let res := (List.range 8).foldl step (0, "")
  if res.1 > 0 then res.2.push (Char.ofNat (48 + res.1)) else res.2

/-- `Board::getFen`. -/
def Board.getFen (b : Board) : String :=
  let boardField := String.intercalate "/"
    ((List.range 8).reverse.map (fun r => fenRank b r))
  let stm := if b.sideToMove = 0 then " w " else " b "
  let castling :=
    if b.castlingRights = 0 then "-"
    else
      (if b.castlingRights &&& 1 ≠ 0 then "K" else "") ++
      (if b.castlingRights &&& 2 ≠ 0 then "Q" else "") ++
      (if b.castlingRights &&& 4 ≠ 0 then "k" else "") ++
      (if b.castlingRights &&& 8 ≠ 0 then "q" else "")
  let ep :=
    if b.enPassantSquare = 64 then "-"
    else String.mk
      [Char.ofNat (97 + squareFile b.enPassantSquare),
       Char.ofNat (49 + squareRank b.enPassantSquare)]
  boardField ++ stm ++ castling ++ " " ++ ep ++ " " ++
    intDecimal b.halfmoveClock ++ " " ++ intDecimal b.fullmoveNumber

/-- `isdigit` on the parser's characters. -/
def isDigitChar (c : Char) : Bool := 48 ≤ c.toNat && c.toNat ≤ 57

/-- `isupper`. -/
def isUpperChar (c : Char) : Bool := 65 ≤ c.toNat && c.toNat ≤ 90

/-- `tolower`. -/
def lowChar (c : Char) : Char :=
  if 65 ≤ c.toNat ∧ c.toNat ≤ 90 then Char.ofNat (c.toNat + 32) else c

/-- The piece type of a lowercase FEN letter; `none` is the parser's
"invalid piece" failure. -/
def pieceOfChar (c : Char) : Option Nat :=
  if c = 'p' then some 0 else if c = 'n' then some 1 else if c = 'b' then some 2
  else if c = 'r' then some 3 else if c = 'q' then some 4 else if c = 'k' then some 5
  else none

/-- State of the board-field scan in `setFromFen`: current rank and file as
C++ ints, and the piece bitboards built so far. -/
structure FenScan where
  rank : Int
  file : Int
  pcs : List (List Nat)

/-- One character of the board-field scan. -/
def fenScanStep (acc : FenScan) (c : Char) : Option FenScan :=
  if c = '/' then some { acc with rank := acc.rank - 1, file := 0 }
  else if isDigitChar c then some { acc with file := acc.file + ((c.toNat : Int) - 48) }
  else
    match pieceOfChar (lowChar c) with
    | none => none
    | some pt =>
      let sq := (acc.rank * 8 + acc.file).toNat
      let color := if isUpperChar c then 0 else 1
      let row := acc.pcs.getD color []
      some { acc with
        pcs := acc.pcs.set color (row.set pt (row.getD pt 0 ||| bit sq)),
        file := acc.file + 1 }

/-- Fold the board-field scan over a list of characters. -/
def fenScan (acc : FenScan) : List Char → Option FenScan
  | [] => some acc
  | c :: rest =>
    match fenScanStep acc c with
    | none => none
    | some acc1 => fenScan acc1 rest

/-- The value of the longest digit prefix (the conversion `std::stoi`
performs after the optional sign). -/
def digitsVal : List Char → Nat → Nat
  | [], acc => acc
  | c :: rest, acc =>
    if isDigitChar c then digitsVal rest (acc * 10 + (c.toNat - 48)) else acc

/-- `std::stoi` on a whitespace-free token: optional sign, then at least
one digit; `none` models the thrown exception. -/
def stoiModel (s : String) : Option Int :=
  let cs := s.toList
  let core := fun (sign : Int) (ds : List Char) =>
    match ds with
    | [] => none
    | c :: _ => if isDigitChar c then some (sign * (digitsVal ds 0 : Int)) else none
  match cs with
  | '-' :: rest => core (-1) rest
  | '+' :: rest => core 1 rest
  | _ => core 1 cs

/-- Is `c` one of the whitespace characters `istringstream` skips? -/
def isWsChar (c : Char) : Bool :=
  c = ' ' || c = '\t' || c = '\n' || c = '\r'

/-- Accumulating scan behind `fenFields`: `acc` is the current token in
reverse. -/
def splitFieldsAux : List Char → List Char → List String
  | [], acc => if acc = [] then [] else [String.mk acc.reverse]
  | c :: rest, acc =>
    if isWsChar c then
      if acc = [] then splitFieldsAux rest []
      else String.mk acc.reverse :: splitFieldsAux rest []
    else splitFieldsAux rest (c :: acc)

/-- Whitespace splitting of `istringstream >> token`: the sequence of
maximal non-whitespace runs. -/
def fenFields (s : String) : List String := splitFieldsAux s.toList []

/-- `Board::setFromFen`.  Mirrors the C++ exactly: the twelve piece
bitboards, `_allPieces` and `_occupiedSquares` are cleared first, fields
are assigned as they parse, and the returned flag reports failure; the
board in the pair is the state the object is left in. -/
def Board.setFromFen (b : Board) (fen : String) : Bool × Board :=
  let b0 := { b with pieces := [[0, 0, 0, 0, 0, 0], [0, 0, 0, 0, 0, 0]],
                     allPieces := [0, 0], occupied := 0 }
  let fields := fenFields fen
  let boardField := fields.getD 0 ""
  let activeColor := fields.getD 1 ""
  let castling := fields.getD 2 ""
  let enPassant := fields.getD 3 ""
  let halfmove := fields.getD 4 ""
  let fullmove := fields.getD 5 ""
  if boardField = "" ∨ activeColor = "" ∨ castling = "" ∨ enPassant = "" ∨
      halfmove = "" ∨ fullmove = "" then (false, b0)
  else
    match fenScan { rank := 7, file := 0, pcs := b0.pieces } boardField.toList with
    | none => (false, b0)
    | some scan =>
      let b1 := { b0 with pieces := scan.pcs,
                          sideToMove := if activeColor = "w" then 0 else 1 }
      -- `_castlingRights` is zeroed, then accumulated character by
      -- character; an invalid character returns failure leaving the
      -- partially accumulated rights in place.
      let rightsScan : Bool × Nat :=
        if castling = "-" then (true, 0)
        else
          castling.toList.foldl (fun acc c =>
            if acc.1 = false then acc
            else
              if b1.chess960 then
                if (65 ≤ c.toNat ∧ c.toNat ≤ 72) ∨ (97 ≤ c.toNat ∧ c.toNat ≤ 104) then
                  (true, acc.2 ||| 0)
                else (false, acc.2)
              else
                if c = 'K' then (true, acc.2 ||| 1)
                else if c = 'Q' then (true, acc.2 ||| 2)
                else if c = 'k' then (true, acc.2 ||| 4)
                else if c = 'q' then (true, acc.2 ||| 8)
                else (false, acc.2)) (true, 0)
      let b2 := { b1 with castlingRights := rightsScan.2 }
      if rightsScan.1 = false then (false, b2)
      else
        let epSq : Nat :=
          if enPassant = "-" then 64
          else
            let f : Int := (enPassant.toList.getD 0 (Char.ofNat 0)).toNat - 97
            let r : Int := (enPassant.toList.getD 1 (Char.ofNat 0)).toNat - 49
            (r * 8 + f).toNat
        let b3 := { b2 with enPassantSquare := epSq }
        match stoiModel halfmove with
        | none => (false, b3)
        | some hm =>
          match stoiModel fullmove with
          | none => (false, { b3 with halfmoveClock := hm })
          | some fm =>
            (true, ({ b3 with halfmoveClock := hm, fullmoveNumber := fm }).updateCombined)

/-- A game is legal if each move in turn is produced by the legal move
generator and accepted by `makeMove`. -/
def legalGame : Board → List Move → Bool
  | _, [] => true
  | b, m :: rest =>
    decide (m ∈ generateLegalMoves b) &&
      ((b.makeMove m).1 && legalGame (b.makeMove m).2 rest)

/-- 1. e4 e5 2. Nf3 Nc6 3. Bc4 d5 4. O-O, in (from, to, promotion)
square-index form. -/
def c1Game : List Move :=
  [Move.mk 12 28 6, Move.mk 52 36 6, Move.mk 6 21 6, Move.mk 57 42 6,
   Move.mk 5 26 6, Move.mk 51 35 6, Move.mk 4 6 6]

/-- The position after `c1Game`. -/
def c1Final : Board := (applyMoves resetBoard c1Game).getD resetBoard

/-- 1. b4 c5 2. bxc5 e6 3. e4 Be7 4. Ke2 Bh4 5. Ke3 Qa5 6. Kd4 h6
7. Ke5 d5 8. Kd6 Kf8 9. cxd6 — a legal game in which the en passant
square set by 7...d5 survives the king moves 8. Kd6 and 8...Kf8, so that
9. cxd6 is generated as an en passant capture onto the white king's own
square. -/
def c6Game : List Move :=
  [Move.mk 9 25 6, Move.mk 50 34 6,
   Move.mk 25 34 6, Move.mk 52 44 6,
   Move.mk 12 28 6, Move.mk 61 52 6,
   Move.mk 4 12 6, Move.mk 52 31 6,
   Move.mk 12 20 6, Move.mk 59 32 6,
   Move.mk 20 27 6, Move.mk 55 47 6,
   Move.mk 27 36 6, Move.mk 51 35 6,
   Move.mk 36 43 6, Move.mk 60 61 6,
   Move.mk 34 43 6]

/-- The position after `c6Game`. -/
def c6Final : Board := (applyMoves resetBoard c6Game).getD resetBoard

/-- Specification invariant 4: if a castling right is set, the
corresponding rook occupies its original corner square and the
corresponding king occupies its original square. -/
def castlingRookKingInvariant (b : Board) : Prop :=
  (b.castlingRights &&& 1 ≠ 0 → (b.piece 0 3).testBit 7 = true ∧ (b.piece 0 5).testBit 4 = true) ∧
  (b.castlingRights &&& 2 ≠ 0 → (b.piece 0 3).testBit 0 = true ∧ (b.piece 0 5).testBit 4 = true) ∧
  (b.castlingRights &&& 4 ≠ 0 → (b.piece 1 3).testBit 63 = true ∧ (b.piece 1 5).testBit 60 = true) ∧
  (b.castlingRights &&& 8 ≠ 0 → (b.piece 1 3).testBit 56 = true ∧ (b.piece 1 5).testBit 60 = true)

instance (b : Board) : Decidable (castlingRookKingInvariant b) := by
  unfold castlingRookKingInvariant
  infer_instance

/-- White pawn b7 and king e1 versus black rook a8 and king e8, black
queenside castling right set, white to move: the promotion capture
b7xa8=Q is available. -/
def promoCaptureBoard : Board :=
  { pieces :=
      [[0x0002000000000000, 0, 0, 0, 0, 0x0000000000000010],
       [0, 0, 0, 0x0100000000000000, 0, 0x1000000000000000]],
    allPieces := [0x0002000000000010, 0x1100000000000000],
    occupied := 0x1102000000000010,
    sideToMove := 0,
    castlingRights := 8,
    enPassantSquare := 64,
    halfmoveClock := 0,
    fullmoveNumber := 1,
    chess960 := false }

/-- White king b8 versus black rook a8 and king e8, black queenside
castling right set, white to move: the king capture Kxa8 is available. -/
def kingCaptureBoard : Board :=
  { pieces :=
      [[0, 0, 0, 0, 0, 0x0200000000000000],
       [0, 0, 0, 0x0100000000000000, 0, 0x1000000000000000]],
    allPieces := [0x0200000000000000, 0x1100000000000000],
    occupied := 0x1300000000000000,
    sideToMove := 0,
    castlingRights := 8,
    enPassantSquare := 64,
    halfmoveClock := 0,
    fullmoveNumber := 1,
    chess960 := false }

/-- The squares of the set bits of a bitboard, as a finite set. -/
def bitsFinset (bb : Nat) : Finset ℕ :=
  (Finset.range 64).filter (fun i => bb.testBit i)

/-- The derived-bitboard, disjointness, bound and king-uniqueness
invariants of a well-formed position (specification §3). -/
def Board.bbInvariant (b : Board) : Prop :=
  b.allOf 0 = b.piece 0 0 ||| b.piece 0 1 ||| b.piece 0 2 ||| b.piece 0 3 |||
    b.piece 0 4 ||| b.piece 0 5 ∧
  b.allOf 1 = b.piece 1 0 ||| b.piece 1 1 ||| b.piece 1 2 ||| b.piece 1 3 |||
    b.piece 1 4 ||| b.piece 1 5 ∧
  b.occupied = b.allOf 0 ||| b.allOf 1 ∧
  b.allOf 0 &&& b.allOf 1 = 0 ∧
  (∀ c, c < 2 → ∀ p, p < 6 → ∀ q, q < 6 → p ≠ q → b.piece c p &&& b.piece c q = 0) ∧
  (∀ c, c < 2 → ∀ p, p < 6 → b.piece c p < 2 ^ 64) ∧
  popCount (b.piece 0 5) = 1 ∧ popCount (b.piece 1 5) = 1

/-- The three insufficient-material cases exactly as the claim states
them: two kings only; three pieces total with one bare king and a single
minor piece on the other side; four pieces total with king plus one
bishop each and the bishops on same-colored squares
(color = (rank + file) mod 2). -/
def insufficientMaterialSpec (b : Board) : Prop :=
  (b.occupied = b.piece 0 5 ||| b.piece 1 5) ∨
  (popCount b.occupied = 3 ∧
    ((b.allOf 0 = b.piece 0 5 ∧ popCount (b.piece 1 1 ||| b.piece 1 2) = 1) ∨
     (b.allOf 1 = b.piece 1 5 ∧ popCount (b.piece 0 1 ||| b.piece 0 2) = 1))) ∨
  (popCount b.occupied = 4 ∧
    b.allOf 0 = b.piece 0 2 ||| b.piece 0 5 ∧ popCount (b.piece 0 2) = 1 ∧
    b.allOf 1 = b.piece 1 2 ||| b.piece 1 5 ∧ popCount (b.piece 1 2) = 1 ∧
    (squareRank (lsb (b.piece 0 2)) + squareFile (lsb (b.piece 0 2))) % 2 =
      (squareRank (lsb (b.piece 1 2)) + squareFile (lsb (b.piece 1 2))) % 2)

/-- White king e1 versus black king e8 and nothing else. -/
def kingsOnlyBoard : Board :=
  { pieces :=
      [[0, 0, 0, 0, 0, 0x0000000000000010],
       [0, 0, 0, 0, 0, 0x1000000000000000]],
    allPieces := [0x0000000000000010, 0x1000000000000000],
    occupied := 0x1000000000000010,
    sideToMove := 0,
    castlingRights := 0,
    enPassantSquare := 64,
    halfmoveClock := 0,
    fullmoveNumber := 1,
    chess960 := false }

instance (b : Board) : Decidable b.bbInvariant := by
  unfold Board.bbInvariant
  infer_instance

instance (b : Board) : Decidable (insufficientMaterialSpec b) := by
  unfold insufficientMaterialSpec
  infer_instance

set_option maxRecDepth 1000000
set_option maxHeartbeats 16000000

theorem ctz_spec : ∀ (fuel bb : Nat), bb ≠ 0 → bb < 2 ^ fuel →
    (bb.testBit (ctzAux fuel bb) = true ∧
     (∀ j, j < ctzAux fuel bb → bb.testBit j = false) ∧
     (∀ i, (bb &&& (bb - 1)).testBit i = true ↔
        (bb.testBit i = true ∧ i ≠ ctzAux fuel bb))) := by
  intro fuel
  induction fuel with
  | zero =>
    intro bb h0 hlt
    omega
  | succ f ih =>
    intro bb h0 hlt
    by_cases hodd : bb % 2 = 1
    · have hc : ctzAux (f + 1) bb = 0 := by
        simp [ctzAux, hodd]
      rw [hc]
      have hbit0 : bb.testBit 0 = true := by
        rw [Nat.testBit_zero]
        simp [hodd]
      have hpredmod : (bb - 1) % 2 = 0 := by omega
      have hpred : (bb - 1) / 2 = bb / 2 := by omega
      refine ⟨hbit0, fun j hj => absurd hj (by omega), fun i => ?_⟩
      rcases i with _ | i
      · rw [Nat.testBit_land, Nat.testBit_zero, Nat.testBit_zero]
        simp [hodd, hpredmod]
      · rw [Nat.testBit_land, Nat.testBit_add_one, Nat.testBit_add_one, hpred]
        simp only [Bool.and_self, Bool.and_eq_true]
        constructor
        · intro h
          exact ⟨h, by omega⟩
        · intro h
          exact h.1
    · have hm2 : bb % 2 = 0 := by omega
      have hc : ctzAux (f + 1) bb = ctzAux f (bb / 2) + 1 := by
        simp [ctzAux, hodd]
      have hhalf0 : bb / 2 ≠ 0 := by omega
      have hhalflt : bb / 2 < 2 ^ f := by
        have hp : (2 : Nat) ^ (f + 1) = 2 ^ f * 2 := by ring
        omega
      obtain ⟨ih1, ih2, ih3⟩ := ih (bb / 2) hhalf0 hhalflt
      rw [hc]
      have hpred2 : (bb - 1) / 2 = bb / 2 - 1 := by omega
      have hpredmod : (bb - 1) % 2 = 1 := by omega
      refine ⟨?_, ?_, ?_⟩
      · rw [Nat.testBit_add_one]
        exact ih1
      · intro j hj
        rcases j with _ | j
        · rw [Nat.testBit_zero]
          simp [hm2]
        · rw [Nat.testBit_add_one]
          exact ih2 j (by omega)
      · intro i
        rcases i with _ | i
        · rw [Nat.testBit_land, Nat.testBit_zero, Nat.testBit_zero]
          simp [hm2]
        · rw [Nat.testBit_land, Nat.testBit_add_one, Nat.testBit_add_one, hpred2]
          have ih3i := ih3 i
          rw [Nat.testBit_land] at ih3i
          rw [ih3i]
          constructor
          · intro h
            exact ⟨h.1, by omega⟩
          · intro h
            exact ⟨h.1, by omega⟩


theorem testBit_ge_64 (bb i : Nat) (h : bb < 2 ^ 64) (hi : 64 ≤ i) :
    bb.testBit i = false :=
  Nat.testBit_lt_two_pow (lt_of_lt_of_le h (Nat.pow_le_pow_right (by omega) hi))

theorem testBit_true_lt (bb i : Nat) (h : bb < 2 ^ 64) (ht : bb.testBit i = true) :
    i < 64 := by
  by_contra hge
  rw [testBit_ge_64 bb i h (by omega)] at ht
  exact Bool.false_ne_true ht

theorem mem_bitsFinset (bb i : Nat) (h : bb < 2 ^ 64) :
    i ∈ bitsFinset bb ↔ bb.testBit i = true := by
  unfold bitsFinset
  rw [Finset.mem_filter, Finset.mem_range]
  constructor
  · exact fun hx => hx.2
  · exact fun hx => ⟨testBit_true_lt bb i h hx, hx⟩

theorem lsb_spec (bb : Nat) (h0 : bb ≠ 0) (h : bb < 2 ^ 64) :
    bb.testBit (lsb bb) = true ∧
    (∀ j, j < lsb bb → bb.testBit j = false) ∧
    (∀ i, (bb &&& (bb - 1)).testBit i = true ↔
      (bb.testBit i = true ∧ i ≠ lsb bb)) := by
  have := ctz_spec 64 bb h0 h
  unfold lsb
  rw [if_neg h0]
  exact this

theorem land_pred_lt (bb : Nat) (h : bb < 2 ^ 64) : bb &&& (bb - 1) < 2 ^ 64 :=
  lt_of_le_of_lt Nat.and_le_left h

theorem bits_land_pred (bb : Nat) (h0 : bb ≠ 0) (h : bb < 2 ^ 64) :
    bitsFinset (bb &&& (bb - 1)) = (bitsFinset bb).erase (lsb bb) := by
  obtain ⟨hl1, _, hl3⟩ := lsb_spec bb h0 h
  ext i
  rw [mem_bitsFinset _ _ (land_pred_lt bb h), Finset.mem_erase,
    mem_bitsFinset _ _ h, hl3 i]
  tauto

theorem lsb_mem_bits (bb : Nat) (h0 : bb ≠ 0) (h : bb < 2 ^ 64) :
    lsb bb ∈ bitsFinset bb := by
  obtain ⟨hl1, _, _⟩ := lsb_spec bb h0 h
  exact (mem_bitsFinset bb _ h).mpr hl1

theorem popCountAux_bridge : ∀ (fuel bb : Nat), bb < 2 ^ 64 →
    (bitsFinset bb).card ≤ fuel → popCountAux fuel bb = (bitsFinset bb).card := by
  intro fuel
  induction fuel with
  | zero =>
    intro bb hlt hcard
    simp only [popCountAux]
    omega
  | succ f ih =>
    intro bb hlt hcard
    by_cases h0 : bb = 0
    · subst h0
      have hempty : bitsFinset 0 = ∅ := by
        unfold bitsFinset
        simp [Nat.zero_testBit]
      simp [popCountAux, hempty]
    · have hmem := lsb_mem_bits bb h0 hlt
      have hcard1 : 1 ≤ (bitsFinset bb).card := Finset.card_pos.mpr ⟨_, hmem⟩
      have herase := bits_land_pred bb h0 hlt
      have hec : ((bitsFinset bb).erase (lsb bb)).card = (bitsFinset bb).card - 1 :=
        Finset.card_erase_of_mem hmem
      simp only [popCountAux, if_neg h0]
      rw [ih (bb &&& (bb - 1)) (land_pred_lt bb hlt) (by rw [herase, hec]; omega)]
      rw [herase, hec]
      omega

theorem popCount_card (bb : Nat) (h : bb < 2 ^ 64) :
    popCount bb = (bitsFinset bb).card := by
  unfold popCount
  exact popCountAux_bridge 64 bb h
    (le_trans (Finset.card_filter_le _ _) (by simp))

theorem bits_lor (x y : Nat) :
    bitsFinset (x ||| y) = bitsFinset x ∪ bitsFinset y := by
  unfold bitsFinset
  ext i
  simp [Nat.testBit_lor]
  tauto

theorem bits_disj (x y : Nat) (h : x &&& y = 0) :
    Disjoint (bitsFinset x) (bitsFinset y) := by
  rw [Finset.disjoint_left]
  intro i hx hy
  unfold bitsFinset at hx hy
  rw [Finset.mem_filter] at hx hy
  have : (x &&& y).testBit i = true := by
    rw [Nat.testBit_land, hx.2, hy.2]
    rfl
  rw [h, Nat.zero_testBit] at this
  exact Bool.false_ne_true this

theorem popCount_or_disjoint (x y : Nat) (hx : x < 2 ^ 64) (hy : y < 2 ^ 64)
    (hd : x &&& y = 0) : popCount (x ||| y) = popCount x + popCount y := by
  rw [popCount_card _ (Nat.or_lt_two_pow hx hy), popCount_card _ hx, popCount_card _ hy,
    bits_lor, Finset.card_union_of_disjoint (bits_disj x y hd)]

theorem bits_inj (x y : Nat) (hx : x < 2 ^ 64) (hy : y < 2 ^ 64)
    (h : bitsFinset x = bitsFinset y) : x = y := by
  apply Nat.eq_of_testBit_eq
  intro i
  by_cases hi : i < 64
  · by_cases hxb : x.testBit i = true
    · have hmem := (mem_bitsFinset x i hx).mpr hxb
      rw [h] at hmem
      rw [hxb, (mem_bitsFinset y i hy).mp hmem]
    · by_cases hyb : y.testBit i = true
      · have hmem := (mem_bitsFinset y i hy).mpr hyb
        rw [← h] at hmem
        exact absurd ((mem_bitsFinset x i hx).mp hmem) hxb
      · rw [Bool.eq_false_iff.mpr hxb, Bool.eq_false_iff.mpr hyb]
  · rw [testBit_ge_64 x i hx (by omega), testBit_ge_64 y i hy (by omega)]


theorem zero_of_subset_disjoint (x y : Nat)
    (hsub : ∀ i, x.testBit i = true → y.testBit i = true) (hd : x &&& y = 0) : x = 0 := by
  apply Nat.eq_of_testBit_eq
  intro i
  rw [Nat.zero_testBit]
  cases hxb : x.testBit i with
  | false => rfl
  | true =>
    have hy := hsub i hxb
    have hland : (x &&& y).testBit i = true := by
      rw [Nat.testBit_land, hxb, hy]
      rfl
    rw [hd, Nat.zero_testBit] at hland
    exact absurd hland (by simp)

theorem land_zero_of_subsets (x y X Y : Nat)
    (hx : ∀ i, x.testBit i = true → X.testBit i = true)
    (hy : ∀ i, y.testBit i = true → Y.testBit i = true)
    (hXY : X &&& Y = 0) : x &&& y = 0 := by
  apply Nat.eq_of_testBit_eq
  intro i
  rw [Nat.zero_testBit, Nat.testBit_land]
  cases hxb : x.testBit i with
  | false => rfl
  | true =>
    cases hyb : y.testBit i with
    | false => rfl
    | true =>
      have : (X &&& Y).testBit i = true := by
        rw [Nat.testBit_land, hx i hxb, hy i hyb]
        rfl
      rw [hXY, Nat.zero_testBit] at this
      exact absurd this (by simp)

theorem land_or_zero (x y z : Nat) (hy : x &&& y = 0) (hz : x &&& z = 0) :
    x &&& (y ||| z) = 0 := by
  apply Nat.eq_of_testBit_eq
  intro i
  rw [Nat.zero_testBit, Nat.testBit_land, Nat.testBit_lor]
  cases hxb : x.testBit i with
  | false => rfl
  | true =>
    cases hyb : y.testBit i with
    | true =>
      have : (x &&& y).testBit i = true := by
        rw [Nat.testBit_land, hxb, hyb]
        rfl
      rw [hy, Nat.zero_testBit] at this
      exact absurd this (by simp)
    | false =>
      cases hzb : z.testBit i with
      | true =>
        have : (x &&& z).testBit i = true := by
          rw [Nat.testBit_land, hxb, hzb]
          rfl
        rw [hz, Nat.zero_testBit] at this
        exact absurd this (by simp)
      | false => rfl

theorem bits_subset (x y : Nat) (hx : x < 2 ^ 64)
    (hsub : ∀ i, x.testBit i = true → y.testBit i = true) :
    bitsFinset x ⊆ bitsFinset y := by
  intro i hi
  unfold bitsFinset at hi ⊢
  rw [Finset.mem_filter] at hi ⊢
  exact ⟨hi.1, hsub i hi.2⟩

theorem popCount_le_of_subset (x y : Nat) (hx : x < 2 ^ 64) (hy : y < 2 ^ 64)
    (hsub : ∀ i, x.testBit i = true → y.testBit i = true) :
    popCount x ≤ popCount y := by
  rw [popCount_card x hx, popCount_card y hy]
  exact Finset.card_le_card (bits_subset x y hx hsub)

theorem eq_of_subset_popCount_le (x y : Nat) (hx : x < 2 ^ 64) (hy : y < 2 ^ 64)
    (hsub : ∀ i, x.testBit i = true → y.testBit i = true)
    (hc : popCount y ≤ popCount x) : x = y := by
  apply bits_inj x y hx hy
  apply Finset.eq_of_subset_of_card_le (bits_subset x y hx hsub)
  rw [popCount_card x hx, popCount_card y hy] at hc
  exact hc

theorem side_bare (p0 p1 p2 p3 p4 k A : Nat)
    (hA : A = p0 ||| p1 ||| p2 ||| p3 ||| p4 ||| k)
    (b0 : p0 < 2 ^ 64) (b1 : p1 < 2 ^ 64) (b2 : p2 < 2 ^ 64) (b3 : p3 < 2 ^ 64)
    (b4 : p4 < 2 ^ 64) (bk : k < 2 ^ 64)
    (d0 : p0 &&& k = 0) (d1 : p1 &&& k = 0) (d2 : p2 &&& k = 0) (d3 : p3 &&& k = 0)
    (d4 : p4 &&& k = 0)
    (hk : popCount k = 1) (hA1 : popCount A = 1) :
    A = k ∧ p0 = 0 ∧ p1 = 0 ∧ p2 = 0 ∧ p3 = 0 ∧ p4 = 0 := by
  have hAlt : A < 2 ^ 64 := by
    rw [hA]
    exact Nat.or_lt_two_pow (Nat.or_lt_two_pow (Nat.or_lt_two_pow (Nat.or_lt_two_pow
      (Nat.or_lt_two_pow b0 b1) b2) b3) b4) bk
  have hsubk : ∀ i, k.testBit i = true → A.testBit i = true := by
    intro i h
    rw [hA]
    simp only [Nat.testBit_lor, h, Bool.or_true]
  have hkA : k = A :=
    eq_of_subset_popCount_le k A bk hAlt hsubk (by omega)
  have hsubp : ∀ (p : Nat), (∀ i, p.testBit i = true → A.testBit i = true) →
      p &&& k = 0 → p = 0 := by
    intro p hs hd
    exact zero_of_subset_disjoint p k (fun i hi => hkA ▸ hs i hi) hd
  refine ⟨hkA.symm, ?_, ?_, ?_, ?_, ?_⟩
  · exact hsubp p0 (fun i h => by rw [hA]; simp only [Nat.testBit_lor, h, Bool.true_or]) d0
  · exact hsubp p1 (fun i h => by rw [hA]; simp only [Nat.testBit_lor, h, Bool.true_or,
      Bool.or_true]) d1
  · exact hsubp p2 (fun i h => by rw [hA]; simp only [Nat.testBit_lor, h, Bool.true_or,
      Bool.or_true]) d2
  · exact hsubp p3 (fun i h => by rw [hA]; simp only [Nat.testBit_lor, h, Bool.true_or,
      Bool.or_true]) d3
  · exact hsubp p4 (fun i h => by rw [hA]; simp only [Nat.testBit_lor, h, Bool.true_or,
      Bool.or_true]) d4

theorem side_kb (p0 p1 bi p3 p4 k A : Nat)
    (hA : A = p0 ||| p1 ||| bi ||| p3 ||| p4 ||| k)
    (b0 : p0 < 2 ^ 64) (b1 : p1 < 2 ^ 64) (bbi : bi < 2 ^ 64) (b3 : p3 < 2 ^ 64)
    (b4 : p4 < 2 ^ 64) (bk : k < 2 ^ 64)
    (dbk : bi &&& k = 0)
    (d0b : p0 &&& bi = 0) (d0k : p0 &&& k = 0)
    (d1b : p1 &&& bi = 0) (d1k : p1 &&& k = 0)
    (d3b : p3 &&& bi = 0) (d3k : p3 &&& k = 0)
    (d4b : p4 &&& bi = 0) (d4k : p4 &&& k = 0)
    (hk : popCount k = 1) (hbi : popCount bi = 1) (hA2 : popCount A = 2) :
    A = bi ||| k ∧ p0 = 0 ∧ p1 = 0 ∧ p3 = 0 ∧ p4 = 0 := by
  have hAlt : A < 2 ^ 64 := by
    rw [hA]
    exact Nat.or_lt_two_pow (Nat.or_lt_two_pow (Nat.or_lt_two_pow (Nat.or_lt_two_pow
      (Nat.or_lt_two_pow b0 b1) bbi) b3) b4) bk
  have hbik : bi ||| k < 2 ^ 64 := Nat.or_lt_two_pow bbi bk
  have hpc2 : popCount (bi ||| k) = 2 := by
    rw [popCount_or_disjoint bi k bbi bk dbk]
    omega
  have hsub : ∀ i, (bi ||| k).testBit i = true → A.testBit i = true := by
    intro i h
    rw [Nat.testBit_lor] at h
    rw [hA]
    rcases Bool.or_eq_true _ _ |>.mp h with h | h
    · simp only [Nat.testBit_lor, h, Bool.true_or, Bool.or_true]
    · simp only [Nat.testBit_lor, h, Bool.or_true]
  have hbikA : bi ||| k = A :=
    eq_of_subset_popCount_le _ A hbik hAlt hsub (by omega)
  have hz : ∀ (p : Nat), (∀ i, p.testBit i = true → A.testBit i = true) →
      p &&& bi = 0 → p &&& k = 0 → p = 0 := by
    intro p hs hd1 hd2
    exact zero_of_subset_disjoint p (bi ||| k) (fun i hi => hbikA ▸ hs i hi)
      (land_or_zero p bi k hd1 hd2)
  refine ⟨hbikA.symm, ?_, ?_, ?_, ?_⟩
  · exact hz p0 (fun i h => by rw [hA]; simp only [Nat.testBit_lor, h, Bool.true_or]) d0b d0k
  · exact hz p1 (fun i h => by rw [hA]; simp only [Nat.testBit_lor, h, Bool.true_or,
      Bool.or_true]) d1b d1k
  · exact hz p3 (fun i h => by rw [hA]; simp only [Nat.testBit_lor, h, Bool.true_or,
      Bool.or_true]) d3b d3k
  · exact hz p4 (fun i h => by rw [hA]; simp only [Nat.testBit_lor, h, Bool.true_or,
      Bool.or_true]) d4b d4k

theorem parity_decide (x y : Nat) :
    ((decide (x % 2 = 0) == decide (y % 2 = 0)) = true) ↔ x % 2 = y % 2 := by
  rcases Nat.mod_two_eq_zero_or_one x with hx | hx <;>
    rcases Nat.mod_two_eq_zero_or_one y with hy | hy <;>
      simp [hx, hy]

theorem land_ne_zero_iff (x y : Nat) (hx : x < 2 ^ 64) :
    x &&& y ≠ 0 ↔ ∃ i, x.testBit i = true ∧ y.testBit i = true := by
  constructor
  · intro h
    have hlt : x &&& y < 2 ^ 64 := lt_of_le_of_lt Nat.and_le_left hx
    obtain ⟨h1, _, _⟩ := lsb_spec (x &&& y) h hlt
    rw [Nat.testBit_land, Bool.and_eq_true] at h1
    exact ⟨lsb (x &&& y), h1⟩
  · rintro ⟨i, hxi, hyi⟩ hzero
    have : (x &&& y).testBit i = true := by
      rw [Nat.testBit_land, hxi, hyi]
      rfl
    rw [hzero, Nat.zero_testBit] at this
    exact absurd this (by simp)

theorem pawn_reciprocity : ∀ c, c < 2 → ∀ a, a < 64 → ∀ s, s < 64 →
    ((pawnAttacks c a).testBit s = true ↔ (pawnAttacks (1 - c) s).testBit a = true) := by
  decide

theorem pawnAttacks_lt (c a : Nat) : pawnAttacks c a < 2 ^ 64 := by
  have h0 : bnot (fmask 0) < 2 ^ 64 := by decide
  have h7 : bnot (fmask 7) < 2 ^ 64 := by decide
  unfold pawnAttacks
  by_cases hc : c = 0
  · rw [if_pos hc]
    exact Nat.or_lt_two_pow (lt_of_le_of_lt Nat.and_le_right h0)
      (lt_of_le_of_lt Nat.and_le_right h7)
  · rw [if_neg hc]
    exact Nat.or_lt_two_pow (lt_of_le_of_lt Nat.and_le_right h0)
      (lt_of_le_of_lt Nat.and_le_right h7)

theorem c9_part2 (b : Board) (c sq : Nat) (hc : c < 2) (hsq : sq < 64)
    (hp : b.piece c 0 < 2 ^ 64) :
    getPieceAttacks 0 sq (1 - c) b.occupied &&& b.piece c 0 ≠ 0 ↔
      ∃ p, (b.piece c 0).testBit p = true ∧ (pawnAttacks c p).testBit sq = true := by
  have hgp : getPieceAttacks 0 sq (1 - c) b.occupied = pawnAttacks (1 - c) sq := by
    unfold getPieceAttacks
    rw [if_pos rfl]
  rw [hgp]
  rw [land_ne_zero_iff _ _ (pawnAttacks_lt (1 - c) sq)]
  constructor
  · rintro ⟨i, hatt, hpbit⟩
    have hi : i < 64 := testBit_true_lt _ i hp hpbit
    have hr := pawn_reciprocity (1 - c) (by omega) sq hsq i hi
    have h1mc : 1 - (1 - c) = c := by omega
    rw [h1mc] at hr
    exact ⟨i, hpbit, hr.mp hatt⟩
  · rintro ⟨p, hpbit, hatt⟩
    have hplt : p < 64 := testBit_true_lt _ p hp hpbit
    have hr := pawn_reciprocity c hc p hplt sq hsq
    exact ⟨p, hr.mp hatt, hpbit⟩

theorem char_toNat_ofNat (n : Nat) (h : n < 55296) : (Char.ofNat n).toNat = n := by
  unfold Char.ofNat
  rw [dif_pos (Or.inl h)]
  rfl

theorem toList_mk (l : List Char) : (String.mk l).toList = l := rfl

theorem mk_append (l l2 : List Char) : String.mk l ++ String.mk l2 = String.mk (l ++ l2) := rfl

theorem fromUci_coords (c1 c2 c3 c4 : Char) (f t : Nat) (hf : f < 64) (ht : t < 64)
    (h1 : c1.toNat = 97 + squareFile f) (h2 : c2.toNat = 49 + squareRank f)
    (h3 : c3.toNat = 97 + squareFile t) (h4 : c4.toNat = 49 + squareRank t)
    (tail : List Char) (htail : tail.length <= 1) :
    Move.fromUci (String.mk ([c1, c2, c3, c4] ++ tail)) =
      (if tail.length = 1 then
        (if tail.getD 0 ' ' = 'q' then Move.mk f t 4
         else if tail.getD 0 ' ' = 'r' then Move.mk f t 3
         else if tail.getD 0 ' ' = 'b' then Move.mk f t 2
         else if tail.getD 0 ' ' = 'n' then Move.mk f t 1
         else Move.mk 64 64 6)
       else Move.mk f t 6) := by
  have hr : squareRank f = f / 8 := rfl
  have hfi : squareFile f = f % 8 := rfl
  have hr2 : squareRank t = t / 8 := rfl
  have hfi2 : squareFile t = t % 8 := rfl
  unfold Move.fromUci
  rw [toList_mk]
  rcases tail with _ | ⟨c5, tail2⟩
  · simp only [List.append_nil, List.length_cons, List.length_nil]
    rw [if_neg (by omega)]
    simp only [List.getD_cons_zero, List.getD_cons_succ, h1, h2, h3, h4]
    rw [if_neg (by omega)]
    norm_num [Move.mk.injEq]
    constructor
    · omega
    · omega
  · rcases tail2 with _ | ⟨c6, tail3⟩
    · simp only [List.length_cons, List.length_nil, List.cons_append, List.nil_append]
      rw [if_neg (by omega)]
      simp only [List.getD_cons_zero, List.getD_cons_succ, h1, h2, h3, h4]
      rw [if_neg (by omega)]
      norm_num
      by_cases hq : c5 = 'q'
      · subst hq
        norm_num [Move.mk.injEq]
        constructor
        · omega
        · omega
      · rw [if_neg hq, if_neg hq]
        by_cases hrr : c5 = 'r'
        · subst hrr
          norm_num [Move.mk.injEq]
          constructor
          · omega
          · omega
        · rw [if_neg hrr, if_neg hrr]
          by_cases hb : c5 = 'b'
          · subst hb
            norm_num [Move.mk.injEq]
            constructor
            · omega
            · omega
          · rw [if_neg hb, if_neg hb]
            by_cases hn : c5 = 'n'
            · subst hn
              norm_num [Move.mk.injEq]
              constructor
              · omega
              · omega
            · rw [if_neg hn, if_neg hn]
    · simp only [List.length_cons] at htail
      omega

/-- Claim C1 (code divergence): in the legal game 1. e4 e5 2. Nf3 Nc6
3. Bc4 d5 4. O-O, every move is produced by the legal-move generator and
accepted by `makeMove`, the final move is white's kingside castling
(king ends on g1, rooks on a1 and f1), yet the resulting
`enPassantSquare` is still d6 (square 43), the square set by black's
d7d5 one move earlier: an accepted castling move does not clear the en
passant square, contradicting the claim that after any accepted
non-double-push move it is cleared. -/
theorem c1_castling_leaves_en_passant_set :
    legalGame resetBoard c1Game = true ∧
    c1Final.piece 0 5 = bit 6 ∧
    c1Final.piece 0 3 = bit 0 ||| bit 5 ∧
    c1Final.enPassantSquare = 43 := by decide

/-- Claim C2 (code divergence): from a position satisfying the
castling-rights invariant (each set right has its rook on the corner and
king on the home square), the accepted promotion capture b7xa8=Q and,
from a second such position, the accepted king capture Kb8xa8 both leave
black's queenside castling right set although the a8 rook has been
removed, breaking the invariant: the promotion and regular-king-move
branches of `makeMove` never update castling rights for a captured
rook. -/
theorem c2_promotion_and_king_capture_keep_castling_rights :
    castlingRookKingInvariant promoCaptureBoard ∧
    (promoCaptureBoard.makeMove (Move.mk 49 56 4)).1 = true ∧
    ¬ castlingRookKingInvariant (promoCaptureBoard.makeMove (Move.mk 49 56 4)).2 ∧
    castlingRookKingInvariant kingCaptureBoard ∧
    (kingCaptureBoard.makeMove (Move.mk 57 56 6)).1 = true ∧
    ¬ castlingRookKingInvariant (kingCaptureBoard.makeMove (Move.mk 57 56 6)).2 := by decide

/-- Claim C3 (counterexample): `setFromFen` accepts a FEN whose en
passant field "z9" is out of range (the claim requires failure), accepts
the active-color token "x" (the claim requires failure), and on a FEN it
does reject (bad piece letter) it leaves the position mutated rather
than unchanged. -/
theorem c3_setFromFen_counterexample :
    (resetBoard.setFromFen "8/8/8/8/8/8/8/8 w - z9 0 1").1 = true ∧
    (resetBoard.setFromFen "8/8/8/8/8/8/8/8 x - - 0 1").1 = true ∧
    (resetBoard.setFromFen "x7/8/8/8/8/8/8/8 w - - 0 1").1 = false ∧
    (resetBoard.setFromFen "x7/8/8/8/8/8/8/8 w - - 0 1").2 ≠ resetBoard := by decide

/-- Claim C3 (amended): `setFromFen` returns failure on a malformed
piece letter, a malformed castling character, a non-numeric clock and a
missing field (verified at representative inputs); it does not validate
the active-color token (any token other than "w" is treated as black)
nor the en passant square (the field is stored unchecked, here as
square 89); and on failure the position is mutated: the piece bitboards
are cleared at entry. -/
theorem c3_setFromFen_amended :
    (resetBoard.setFromFen "x7/8/8/8/8/8/8/8 w - - 0 1").1 = false ∧
    (resetBoard.setFromFen "8/8/8/8/8/8/8/8 w X - 0 1").1 = false ∧
    (resetBoard.setFromFen "8/8/8/8/8/8/8/8 w - - ab 1").1 = false ∧
    (resetBoard.setFromFen "8/8/8/8/8/8/8/8 w -").1 = false ∧
    (resetBoard.setFromFen "8/8/8/8/8/8/8/8 x - - 0 1").1 = true ∧
    (resetBoard.setFromFen "8/8/8/8/8/8/8/8 x - - 0 1").2.sideToMove = 1 ∧
    (resetBoard.setFromFen "8/8/8/8/8/8/8/8 w - z9 0 1").1 = true ∧
    (resetBoard.setFromFen "8/8/8/8/8/8/8/8 w - z9 0 1").2.enPassantSquare = 89 ∧
    (resetBoard.setFromFen "x7/8/8/8/8/8/8/8 w - - 0 1").2.pieces =
      [[0, 0, 0, 0, 0, 0], [0, 0, 0, 0, 0, 0]] := by decide

/-- Claim C4: `makeMove` does not validate movement rules.  From the
starting position, the pawn move a2-a5 (three ranks forward) and the
queen move d1-d2 (onto the friendly d2 pawn) are both outside the
pseudo-legal move list, yet `makeMove` accepts both; the friendly pawn
on d2 is removed as if captured (the queen stands there afterwards). -/
theorem c4_makeMove_accepts_non_pseudo_legal :
    Move.mk 8 32 6 ∉ generatePseudoLegalMoves resetBoard ∧
    (resetBoard.makeMove (Move.mk 8 32 6)).1 = true ∧
    Move.mk 3 11 6 ∉ generatePseudoLegalMoves resetBoard ∧
    (resetBoard.makeMove (Move.mk 3 11 6)).1 = true ∧
    ((resetBoard.makeMove (Move.mk 3 11 6)).2.piece 0 0).testBit 11 = false ∧
    ((resetBoard.makeMove (Move.mk 3 11 6)).2.piece 0 4).testBit 11 = true := by decide

/-- Claim C5 (counterexample): on input 2 the returned value of
`popLsb` is 2, the whole input bitboard, not the Square index 1 of its
least significant set bit (the mutated argument, 0, is correct). -/
theorem c5_popLsb_counterexample :
    (popLsb 2).1 = 2 ∧ lsb 2 = 1 ∧ (popLsb 2).1 ≠ lsb 2 ∧ (popLsb 2).2 = 0 := by decide

/-- Claim C5 (amended): `popLsb` applied to a nonzero 64-bit bitboard
returns the input value itself (the pre-clear bitboard, not the Square
index of its least significant set bit) and mutates its argument so that
exactly the least significant set bit is cleared: `lsb` names the least
set bit and the new value keeps every bit of the input except that
one. -/
theorem c5_popLsb_amended (bb : Nat) (h0 : bb ≠ 0) (hlt : bb < 2 ^ 64) :
    (popLsb bb).1 = bb ∧
    bb.testBit (lsb bb) = true ∧
    (∀ j, j < lsb bb → bb.testBit j = false) ∧
    (∀ i, ((popLsb bb).2).testBit i = true ↔ (bb.testBit i = true ∧ i ≠ lsb bb)) := by
  obtain ⟨h1, h2, h3⟩ := lsb_spec bb h0 hlt
  exact ⟨rfl, h1, h2, h3⟩

/-- Witness for the amended claim C5 at the concrete bitboard 12. -/
theorem c5_popLsb_amended_witness :
    (popLsb 12).1 = 12 ∧
    Nat.testBit 12 (lsb 12) = true ∧
    (∀ j, j < lsb 12 → Nat.testBit 12 j = false) ∧
    (∀ i, ((popLsb 12).2).testBit i = true ↔ (Nat.testBit 12 i = true ∧ i ≠ lsb 12)) :=
  c5_popLsb_amended 12 (by decide) (by decide)

/-- Claim C6 (code divergence): in the legal game 1. b4 c5 2. bxc5 e6
3. e4 Be7 4. Ke2 Bh4 5. Ke3 Qa5 6. Kd4 h6 7. Ke5 d5 8. Kd6 Kf8 9. cxd6,
every move is produced by the legal-move generator and accepted by
`makeMove`; the final en passant capture lands the white c5 pawn on the
white king's own square d6 (the en passant square set by 7...d5 survived
the king moves 8. Kd6 and 8...Kf8).  The resulting position has
overlapping white pawn and king bitboards, its FEN emission drops the
king, and parsing the emitted FEN succeeds but yields a different
position: `parse(emit(p)) ≠ p` for this reachable position. -/
theorem c6_fen_roundtrip_fails :
    legalGame resetBoard c6Game = true ∧
    (c6Final.setFromFen c6Final.getFen).1 = true ∧
    (c6Final.setFromFen c6Final.getFen).2 ≠ c6Final ∧
    c6Final.piece 0 0 &&& c6Final.piece 0 5 ≠ 0 := by decide

/-- Claim C7: the legal move generator applied to the standard starting
position returns exactly 20 moves. -/
theorem c7_startpos_legal_move_count :
    (generateLegalMoves resetBoard).length = 20 := by decide

/-- Claim C8 (counterexample): the move (e2, e4, promotion = PAWN) is
structurally valid (both squares real), but its UCI encoding is "e2e4"
and parsing that yields promotion `NO_PIECE_TYPE`, not PAWN: the UCI
round-trip fails for promotion values outside {none, queen, rook,
bishop, knight}. -/
theorem c8_uci_roundtrip_counterexample :
    Move.toUci (Move.mk 12 28 0) = "e2e4" ∧
    Move.fromUci (Move.toUci (Move.mk 12 28 0)) ≠ Move.mk 12 28 0 := by decide

/-- Claim C8 (amended): for every structurally valid move whose
promotion field is `NO_PIECE_TYPE` or one of queen, rook, bishop,
knight, parsing the UCI encoding returns the same move:
`from_uci(m.to_uci()) = m` in all three components. -/
theorem c8_uci_roundtrip_amended (f t p : Nat) (hf : f < 64) (ht : t < 64)
    (hp : p = 6 ∨ p = 4 ∨ p = 3 ∨ p = 2 ∨ p = 1) :
    Move.fromUci (Move.toUci (Move.mk f t p)) = Move.mk f t p := by
  have hval : (Move.mk f t p).isValid = true := by
    simp only [Move.isValid, Bool.and_eq_true, bne_iff_ne]
    exact ⟨by omega, by omega⟩
  have hfb : squareFile f < 8 := Nat.mod_lt f (by omega)
  have htb : squareFile t < 8 := Nat.mod_lt t (by omega)
  have h1 : (Char.ofNat (97 + squareFile f)).toNat = 97 + squareFile f :=
    char_toNat_ofNat _ (by omega)
  have h2 : (Char.ofNat (49 + squareRank f)).toNat = 49 + squareRank f :=
    char_toNat_ofNat _ (by simp only [squareRank]; omega)
  have h3 : (Char.ofNat (97 + squareFile t)).toNat = 97 + squareFile t :=
    char_toNat_ofNat _ (by omega)
  have h4 : (Char.ofNat (49 + squareRank t)).toNat = 49 + squareRank t :=
    char_toNat_ofNat _ (by simp only [squareRank]; omega)
  have key := fun (tl : List Char) (htl : tl.length <= 1) =>
    fromUci_coords _ _ _ _ f t hf ht h1 h2 h3 h4 tl htl
  simp only [Move.toUci, hval]
  rw [if_neg (by simp)]
  rcases hp with rfl | rfl | rfl | rfl | rfl
  · rw [if_neg (by norm_num)]
    have e := key [] (by norm_num)
    rw [List.append_nil] at e
    rw [e]
    norm_num
  · rw [if_pos (by norm_num), if_pos rfl]
    rw [show ("q" : String) = String.mk ['q'] from rfl, mk_append, key ['q'] (by norm_num)]
    norm_num
  · rw [if_pos (by norm_num), if_neg (by norm_num), if_pos rfl]
    rw [show ("r" : String) = String.mk ['r'] from rfl, mk_append, key ['r'] (by norm_num)]
    norm_num
    all_goals first
    | rfl
    | decide
  · rw [if_pos (by norm_num), if_neg (by norm_num), if_neg (by norm_num), if_pos rfl]
    rw [show ("b" : String) = String.mk ['b'] from rfl, mk_append, key ['b'] (by norm_num)]
    norm_num
    all_goals first
    | rfl
    | decide
  · rw [if_pos (by norm_num), if_neg (by norm_num), if_neg (by norm_num), if_neg (by norm_num),
      if_pos rfl]
    rw [show ("n" : String) = String.mk ['n'] from rfl, mk_append, key ['n'] (by norm_num)]
    norm_num
    all_goals first
    | rfl
    | decide

/-- Witness for the amended claim C8 at two concrete moves, one without
and one with a promotion. -/
theorem c8_uci_roundtrip_amended_witness :
    Move.fromUci (Move.toUci (Move.mk 12 28 6)) = Move.mk 12 28 6 ∧
    Move.fromUci (Move.toUci (Move.mk 48 56 4)) = Move.mk 48 56 4 :=
  ⟨c8_uci_roundtrip_amended 12 28 6 (by decide) (by decide) (Or.inl rfl),
   c8_uci_roundtrip_amended 48 56 4 (by decide) (by decide) (Or.inr (Or.inl rfl))⟩

/-- Claim C9: pawn-attack reciprocity (square b lies in the attacks of a
color-c pawn on a exactly when a lies in the attacks of an opposite
colored pawn on b), and consequently the pawn term of
`isSquareAttacked` — the pawn-attack lookup at `1 - attackingColor`
intersected with the attacker's pawns — is nonzero exactly when some
pawn of the attacking color attacks the square. -/
theorem c9_pawn_attack_reciprocity :
    (∀ c, c < 2 → ∀ a, a < 64 → ∀ s, s < 64 →
      ((pawnAttacks c a).testBit s = true ↔ (pawnAttacks (1 - c) s).testBit a = true)) ∧
    (∀ (b : Board) (c sq : Nat), c < 2 → sq < 64 → b.piece c 0 < 2 ^ 64 →
      (getPieceAttacks 0 sq (1 - c) b.occupied &&& b.piece c 0 ≠ 0 ↔
        ∃ p, (b.piece c 0).testBit p = true ∧ (pawnAttacks c p).testBit sq = true)) :=
  ⟨pawn_reciprocity, fun b c sq hc hsq hp => c9_part2 b c sq hc hsq hp⟩

/-- Witness for claim C9: the white pawn on e2 attacks f3 and
reciprocally, and in the starting position the pawn term of the attack
query at e3 for white is nonzero exactly because a white pawn attacks
e3. -/
theorem c9_pawn_attack_reciprocity_witness :
    ((pawnAttacks 0 12).testBit 21 = true ↔ (pawnAttacks 1 21).testBit 12 = true) ∧
    (getPieceAttacks 0 20 (1 - 0) resetBoard.occupied &&& resetBoard.piece 0 0 ≠ 0 ↔
      ∃ p, (resetBoard.piece 0 0).testBit p = true ∧ (pawnAttacks 0 p).testBit 20 = true) :=
  ⟨c9_pawn_attack_reciprocity.1 0 (by decide) 12 (by decide) 21 (by decide),
   c9_pawn_attack_reciprocity.2 resetBoard 0 20 (by decide) (by decide) (by decide)⟩

/-- Claim C10: `isInsufficientMaterial` returns true in exactly three
cases — two kings only; three pieces total with one bare king and a
single minor piece on the other side; four pieces total with king plus
one bishop each and the two bishops on same-colored squares
(color = (rank + file) mod 2) — and returns false for every other
material configuration (in particular for king and knight versus king
and knight, where the four-piece case fails because neither side has a
bishop).  Stated for every position satisfying the derived-bitboard,
disjointness and king-uniqueness invariants. -/
theorem c10_insufficient_material_iff (b : Board) (hinv : b.bbInvariant) :
    b.isInsufficientMaterial = true ↔ insufficientMaterialSpec b := by
  obtain ⟨haw, hab, hocc, hcd, hdisj, hbnd, hkw, hkb⟩ := hinv
  have bndW : ∀ p, p < 6 → b.piece 0 p < 2 ^ 64 := fun p hp => hbnd 0 (by omega) p hp
  have bndB : ∀ p, p < 6 → b.piece 1 p < 2 ^ 64 := fun p hp => hbnd 1 (by omega) p hp
  have dW : ∀ p q, p < 6 → q < 6 → p ≠ q → b.piece 0 p &&& b.piece 0 q = 0 :=
    fun p q hp hq hne => hdisj 0 (by omega) p hp q hq hne
  have dB : ∀ p q, p < 6 → q < 6 → p ≠ q → b.piece 1 p &&& b.piece 1 q = 0 :=
    fun p q hp hq hne => hdisj 1 (by omega) p hp q hq hne
  have awlt : b.allOf 0 < 2 ^ 64 := by
    rw [haw]
    exact Nat.or_lt_two_pow (Nat.or_lt_two_pow (Nat.or_lt_two_pow (Nat.or_lt_two_pow
      (Nat.or_lt_two_pow (bndW 0 (by omega)) (bndW 1 (by omega))) (bndW 2 (by omega)))
      (bndW 3 (by omega))) (bndW 4 (by omega))) (bndW 5 (by omega))
  have ablt : b.allOf 1 < 2 ^ 64 := by
    rw [hab]
    exact Nat.or_lt_two_pow (Nat.or_lt_two_pow (Nat.or_lt_two_pow (Nat.or_lt_two_pow
      (Nat.or_lt_two_pow (bndB 0 (by omega)) (bndB 1 (by omega))) (bndB 2 (by omega)))
      (bndB 3 (by omega))) (bndB 4 (by omega))) (bndB 5 (by omega))
  have hsum : popCount b.occupied = popCount (b.allOf 0) + popCount (b.allOf 1) := by
    rw [hocc]
    exact popCount_or_disjoint _ _ awlt ablt hcd
  have subW : ∀ i, (b.piece 0 5).testBit i = true → (b.allOf 0).testBit i = true := by
    intro i h
    rw [haw]
    simp only [Nat.testBit_lor, h, Bool.or_true]
  have subB : ∀ i, (b.piece 1 5).testBit i = true → (b.allOf 1).testBit i = true := by
    intro i h
    rw [hab]
    simp only [Nat.testBit_lor, h, Bool.or_true]
  have hWge : 1 ≤ popCount (b.allOf 0) := by
    have := popCount_le_of_subset _ _ (bndW 5 (by omega)) awlt subW
    omega
  have hBge : 1 ≤ popCount (b.allOf 1) := by
    have := popCount_le_of_subset _ _ (bndB 5 (by omega)) ablt subB
    omega
  -- bare-side analyses, available on demand
  have bareW : popCount (b.allOf 0) = 1 →
      b.allOf 0 = b.piece 0 5 ∧ b.piece 0 0 = 0 ∧ b.piece 0 1 = 0 ∧ b.piece 0 2 = 0 ∧
      b.piece 0 3 = 0 ∧ b.piece 0 4 = 0 := fun h1 =>
    side_bare _ _ _ _ _ _ _ haw (bndW 0 (by omega)) (bndW 1 (by omega)) (bndW 2 (by omega))
      (bndW 3 (by omega)) (bndW 4 (by omega)) (bndW 5 (by omega))
      (dW 0 5 (by omega) (by omega) (by omega)) (dW 1 5 (by omega) (by omega) (by omega))
      (dW 2 5 (by omega) (by omega) (by omega)) (dW 3 5 (by omega) (by omega) (by omega))
      (dW 4 5 (by omega) (by omega) (by omega)) hkw h1
  have bareB : popCount (b.allOf 1) = 1 →
      b.allOf 1 = b.piece 1 5 ∧ b.piece 1 0 = 0 ∧ b.piece 1 1 = 0 ∧ b.piece 1 2 = 0 ∧
      b.piece 1 3 = 0 ∧ b.piece 1 4 = 0 := fun h1 =>
    side_bare _ _ _ _ _ _ _ hab (bndB 0 (by omega)) (bndB 1 (by omega)) (bndB 2 (by omega))
      (bndB 3 (by omega)) (bndB 4 (by omega)) (bndB 5 (by omega))
      (dB 0 5 (by omega) (by omega) (by omega)) (dB 1 5 (by omega) (by omega) (by omega))
      (dB 2 5 (by omega) (by omega) (by omega)) (dB 3 5 (by omega) (by omega) (by omega))
      (dB 4 5 (by omega) (by omega) (by omega)) hkb h1
  have kbW : popCount (b.allOf 0) = 2 → popCount (b.piece 0 2) = 1 →
      b.allOf 0 = b.piece 0 2 ||| b.piece 0 5 ∧ b.piece 0 0 = 0 ∧ b.piece 0 1 = 0 ∧
      b.piece 0 3 = 0 ∧ b.piece 0 4 = 0 := fun h2 hb1 =>
    side_kb _ _ _ _ _ _ _ haw (bndW 0 (by omega)) (bndW 1 (by omega)) (bndW 2 (by omega))
      (bndW 3 (by omega)) (bndW 4 (by omega)) (bndW 5 (by omega))
      (dW 2 5 (by omega) (by omega) (by omega))
      (dW 0 2 (by omega) (by omega) (by omega)) (dW 0 5 (by omega) (by omega) (by omega))
      (dW 1 2 (by omega) (by omega) (by omega)) (dW 1 5 (by omega) (by omega) (by omega))
      (dW 3 2 (by omega) (by omega) (by omega)) (dW 3 5 (by omega) (by omega) (by omega))
      (dW 4 2 (by omega) (by omega) (by omega)) (dW 4 5 (by omega) (by omega) (by omega))
      hkw hb1 h2
  have kbB : popCount (b.allOf 1) = 2 → popCount (b.piece 1 2) = 1 →
      b.allOf 1 = b.piece 1 2 ||| b.piece 1 5 ∧ b.piece 1 0 = 0 ∧ b.piece 1 1 = 0 ∧
      b.piece 1 3 = 0 ∧ b.piece 1 4 = 0 := fun h2 hb1 =>
    side_kb _ _ _ _ _ _ _ hab (bndB 0 (by omega)) (bndB 1 (by omega)) (bndB 2 (by omega))
      (bndB 3 (by omega)) (bndB 4 (by omega)) (bndB 5 (by omega))
      (dB 2 5 (by omega) (by omega) (by omega))
      (dB 0 2 (by omega) (by omega) (by omega)) (dB 0 5 (by omega) (by omega) (by omega))
      (dB 1 2 (by omega) (by omega) (by omega)) (dB 1 5 (by omega) (by omega) (by omega))
      (dB 3 2 (by omega) (by omega) (by omega)) (dB 3 5 (by omega) (by omega) (by omega))
      (dB 4 2 (by omega) (by omega) (by omega)) (dB 4 5 (by omega) (by omega) (by omega))
      hkb hb1 h2
  have dkk : b.piece 0 5 &&& b.piece 1 5 = 0 :=
    land_zero_of_subsets _ _ _ _ subW subB hcd
  -- spec case 1 forces popcount 2
  have case1pc : b.occupied = b.piece 0 5 ||| b.piece 1 5 → popCount b.occupied = 2 := by
    intro hrw
    rw [hrw, popCount_or_disjoint _ _ (bndW 5 (by omega)) (bndB 5 (by omega)) dkk, hkw, hkb]
  -- spec case 2 forces the code conditions
  have case2code : ∀ hspec : popCount b.occupied = 3 ∧
      ((b.allOf 0 = b.piece 0 5 ∧ popCount (b.piece 1 1 ||| b.piece 1 2) = 1) ∨
       (b.allOf 1 = b.piece 1 5 ∧ popCount (b.piece 0 1 ||| b.piece 0 2) = 1)),
      (popCount (b.allOf 0) = 1 ∨ popCount (b.allOf 1) = 1) ∧
      popCount (b.piece 0 1 ||| b.piece 0 2 ||| b.piece 1 1 ||| b.piece 1 2) = 1 := by
    rintro ⟨hpc3, hcase | hcase⟩
    · have hpcw : popCount (b.allOf 0) = 1 := by
        rw [hcase.1]
        exact hkw
      obtain ⟨_, _, hwn, hwb, _, _⟩ := bareW hpcw
      refine ⟨Or.inl hpcw, ?_⟩
      rw [hwn, hwb]
      simpa using hcase.2
    · have hpcb : popCount (b.allOf 1) = 1 := by
        rw [hcase.1]
        exact hkb
      obtain ⟨_, _, hbn, hbb, _, _⟩ := bareB hpcb
      refine ⟨Or.inr hpcb, ?_⟩
      rw [hbn, hbb]
      simpa using hcase.2
  unfold Board.isInsufficientMaterial
  by_cases h2 : popCount b.occupied = 2
  · rw [if_pos h2]
    have hpcw : popCount (b.allOf 0) = 1 := by omega
    have hpcb : popCount (b.allOf 1) = 1 := by omega
    obtain ⟨hawk, _, _, _, _, _⟩ := bareW hpcw
    obtain ⟨habk, _, _, _, _, _⟩ := bareB hpcb
    have hc1 : b.occupied = b.piece 0 5 ||| b.piece 1 5 := by
      rw [hocc, hawk, habk]
    exact ⟨fun _ => Or.inl hc1, fun _ => rfl⟩
  · rw [if_neg h2]
    by_cases h3 : popCount b.occupied = 3 ∧
        (popCount (b.allOf 0) = 1 ∨ popCount (b.allOf 1) = 1)
    · rw [if_pos h3]
      rw [decide_eq_true_iff]
      obtain ⟨h3a, h3b⟩ := h3
      constructor
      · intro hmin
        rcases h3b with hpcw | hpcb
        · obtain ⟨hawk, _, hwn, hwb, _, _⟩ := bareW hpcw
          refine Or.inr (Or.inl ⟨h3a, Or.inl ⟨hawk, ?_⟩⟩)
          rw [hwn, hwb] at hmin
          simpa using hmin
        · obtain ⟨habk, _, hbn, hbb, _, _⟩ := bareB hpcb
          refine Or.inr (Or.inl ⟨h3a, Or.inr ⟨habk, ?_⟩⟩)
          rw [hbn, hbb] at hmin
          simpa using hmin
      · intro hspec
        rcases hspec with hc1 | hc2 | hc4
        · exact absurd (case1pc hc1) h2
        · exact (case2code hc2).2
        · omega
    · rw [if_neg h3]
      by_cases h4 : popCount b.occupied = 4 ∧ popCount (b.piece 0 2) = 1 ∧
          popCount (b.piece 1 2) = 1 ∧ popCount (b.allOf 0) = 2 ∧ popCount (b.allOf 1) = 2
      · rw [if_pos h4]
        rw [parity_decide]
        obtain ⟨h4a, h4wb, h4bb, h4w2, h4b2⟩ := h4
        obtain ⟨hawkb, _, _, _, _⟩ := kbW h4w2 h4wb
        obtain ⟨habkb, _, _, _, _⟩ := kbB h4b2 h4bb
        constructor
        · intro hpar
          exact Or.inr (Or.inr ⟨h4a, hawkb, h4wb, habkb, h4bb, hpar⟩)
        · intro hspec
          rcases hspec with hc1 | hc2 | hc4
          · exact absurd (case1pc hc1) h2
          · omega
          · exact hc4.2.2.2.2.2
      · rw [if_neg h4]
        constructor
        · intro hfalse
          exact absurd hfalse (by simp)
        · intro hspec
          rcases hspec with hc1 | hc2 | hc4
          · exact absurd (case1pc hc1) h2
          · exact absurd ⟨hc2.1, (case2code hc2).1⟩ h3
          · obtain ⟨h4a, hawkb, h4wb, habkb, h4bb, _⟩ := hc4
            have h4w2 : popCount (b.allOf 0) = 2 := by
              rw [hawkb, popCount_or_disjoint _ _ (bndW 2 (by omega)) (bndW 5 (by omega))
                (dW 2 5 (by omega) (by omega) (by omega)), h4wb, hkw]
            have h4b2 : popCount (b.allOf 1) = 2 := by
              rw [habkb, popCount_or_disjoint _ _ (bndB 2 (by omega)) (bndB 5 (by omega))
                (dB 2 5 (by omega) (by omega) (by omega)), h4bb, hkb]
            exact absurd ⟨h4a, h4wb, h4bb, h4w2, h4b2⟩ h4

/-- Witness for claim C10 at the two-kings-only position. -/
theorem c10_insufficient_material_iff_witness :
    kingsOnlyBoard.bbInvariant ∧
    (kingsOnlyBoard.isInsufficientMaterial = true ↔
      insufficientMaterialSpec kingsOnlyBoard) :=
  ⟨by decide, c10_insufficient_material_iff kingsOnlyBoard (by decide)⟩

end BitChess
